import Mathlib

/-!
Verification of the WaterMarker batch watermarking tool (src/WaterMarker.go)
against its natural-language specification.

The Go program is shallowly embedded below: the pixel-level compositing
follows Go's image/draw generic path for an *image.RGBA destination, the
geometry follows image.Rectangle / image.Point, machine-integer narrowing
(uint8 conversions) is modelled with explicit `% 256`, and the per-task
control flow (skip / decode / encode / fatal exit) is modelled with an
explicit environment of fallible operations.
-/

namespace WaterMarker

/-- image.Point: a 2D integer point. -/
structure Point where
  x : Int
  y : Int
  deriving DecidableEq, Repr

/-- image.Rectangle: axis-aligned rectangle, pixels with min ≤ p < max. -/
structure Rect where
  min : Point
  max : Point
  deriving DecidableEq, Repr

/-- Point addition (image.Point.Add). -/
def Point.add (p q : Point) : Point := ⟨p.x + q.x, p.y + q.y⟩

/-- Point subtraction (image.Point.Sub). -/
def Point.sub (p q : Point) : Point := ⟨p.x - q.x, p.y - q.y⟩

/-- image.Rectangle.Add: translate a rectangle by a point. -/
def Rect.add (r : Rect) (p : Point) : Rect := ⟨r.min.add p, r.max.add p⟩

/-- image.Rectangle.Empty. -/
def Rect.isEmpty (r : Rect) : Bool :=
  r.min.x ≥ r.max.x || r.min.y ≥ r.max.y

/-- image.Rectangle.Intersect: clip to the common region; an empty
intersection is normalised to the zero rectangle, as in Go. -/
def Rect.inter (r s : Rect) : Rect :=
  let t : Rect := ⟨⟨Max.max r.min.x s.min.x, Max.max r.min.y s.min.y⟩,
                   ⟨Min.min r.max.x s.max.x, Min.min r.max.y s.max.y⟩⟩
  if t.isEmpty then ⟨⟨0, 0⟩, ⟨0, 0⟩⟩ else t

/-- image.Point.In: membership of a point in a rectangle. -/
def inRect (r : Rect) (p : Point) : Bool :=
  r.min.x ≤ p.x && p.x < r.max.x && r.min.y ≤ p.y && p.y < r.max.y

/-- Line 84: `mask := image.NewUniform(color.Alpha{uint8(*paramOpacity * 255)})`.
The Go `uint8` conversion of an int keeps the low 8 bits, i.e. reduces
modulo 256 (Int.emod with positive modulus is non-negative, matching it). -/
def maskAlpha (opacity : Int) : Int := (opacity * 255) % 256

/-- Lines 108–113: the offset computed inside a task from the string
`watermarkLocation`, using the Max corners of the two bounds rectangles;
the zero value `image.Point{}` remains when neither branch matches. -/
def watermarkOffset (watermarkLocation : String) (imgSize wmSize : Rect) : Point :=
  if watermarkLocation = "left" then
    ⟨0, imgSize.max.y - wmSize.max.y⟩
  else if watermarkLocation = "right" then
    ⟨imgSize.max.x - wmSize.max.x, imgSize.max.y - wmSize.max.y⟩
  else
    ⟨0, 0⟩

/-- The run configuration: values of the seven command-line flags
(lines 23–31), minus the boolean force flag which only gates start-up. -/
structure Config where
  opacity : Int
  location : String
  scale : ℚ
  watermark : String
  sourceDir : String
  targetDir : String
  deriving DecidableEq

/-- Line 119: the goroutine parameter `watermarkLocation` is invoked with
`*paramWatermark` — the watermark file path — not `*paramLocation`. -/
def taskLocationArg (cfg : Config) : String := cfg.watermark

/-- The offset a task actually computes for a given base bounds and scaled
watermark bounds (lines 108–113 with the argument of line 119). -/
def taskWatermarkOffset (cfg : Config) (imgSize wmSize : Rect) : Point :=
  watermarkOffset (taskLocationArg cfg) imgSize wmSize

/-- strings.HasSuffix: the string is at least as long as the candidate
suffix and its trailing characters equal it (case-sensitive). -/
def hasSuffix (s suffix : List Char) : Bool :=
  suffix.length ≤ s.length && s.drop (s.length - suffix.length) == suffix

def strHasSuffix (s suffix : String) : Bool := hasSuffix s.toList suffix.toList

/-- A directory entry the batch composites: name ends in ".jpg" or ".jpeg"
(negation of the skip condition at line 95). -/
def isEligible (name : String) : Bool :=
  strHasSuffix name ".jpg" || strHasSuffix name ".jpeg"

/-- path.Join for the shapes this program builds: a clean directory name
joined to a file name with a slash. -/
def pathJoin (dir fname : String) : String := dir ++ "/" ++ fname

/-- Outcome of code that may call log.Fatalf: either the process has exited
with a fatal message, or the computation's value. -/
inductive FatalOr (α : Type) where
  | fatal (msg : String)
  | ok (val : α)
  deriving DecidableEq, Repr

def FatalOr.isFatal {α : Type} : FatalOr α → Bool
  | .fatal _ => true
  | .ok _ => false

/-- The I/O environment of one run: directory listing, and success or
failure of each task's open+decode and create+encode steps, by path. -/
structure Env where
  readDir : String → Option (List String)
  openDecodeJpeg : String → Bool
  createEncodeJpeg : String → Bool

inductive TaskResult where
  | skipped
  | wrote (fpath : String)
  deriving DecidableEq, Repr

/-- Output files a task produced. -/
def outputsOf : TaskResult → List String
  | .skipped => []
  | .wrote fpath => [fpath]

/-- Lines 100–118, after the extension check: openImage (fatal on open or
jpeg-decode failure, lines 155–166), composite, saveImage (fatal on create
or encode failure, lines 139–152), writing targetDir/name. -/
def processEligibleFile (env : Env) (cfg : Config) (name : String) : FatalOr TaskResult :=
  if !env.openDecodeJpeg (pathJoin cfg.sourceDir name) then
    .fatal "failed to open or decode jpeg image"
  else if !env.createEncodeJpeg (pathJoin cfg.targetDir name) then
    .fatal "failed to create or encode watermarked image"
  else
    .ok (.wrote (pathJoin cfg.targetDir name))

/-- Lines 93–119: one per-file task. Lines 95–98: a name ending in neither
".jpg" nor ".jpeg" is skipped with a notice and no error. -/
def runTask (env : Env) (cfg : Config) (name : String) : FatalOr TaskResult :=
  if !strHasSuffix name ".jpg" && !strHasSuffix name ".jpeg" then
    .ok .skipped
  else
    processEligibleFile env cfg name

/-- All tasks of a batch; any task's fatal exit is the whole run's outcome
(log.Fatalf terminates the process, not just the goroutine). -/
def runTasks (env : Env) (cfg : Config) : List String → FatalOr (List String)
  | [] => .ok []
  | name :: rest =>
    match runTask env cfg name with
    | .fatal msg => .fatal msg
    | .ok res =>
      match runTasks env cfg rest with
      | .fatal msg => .fatal msg
      | .ok outs => .ok (outputsOf res ++ outs)

/-- Lines 85–124: list the source directory (getFiles is fatal on a read
error, lines 131–137), run one task per entry, and report the count printed
at line 124 — len(files), the total number of directory entries. -/
def runBatch (env : Env) (cfg : Config) : FatalOr (List String × Nat) :=
  match env.readDir cfg.sourceDir with
  | none => .fatal "read dir"
  | some files =>
    match runTasks env cfg files with
    | .fatal msg => .fatal msg
    | .ok outs => .ok (outs, files.length)

/-- A run configuration with the flag defaults of lines 23–30, except that
the location flag is set to "right" explicitly. -/
def cfgDefault : Config := ⟨70, "right", 1/5, "watermark.png", "photos", "watermarked"⟩

/-- A source directory holding one eligible and one ineligible entry, with
every file operation succeeding. -/
def envTwoFiles : Env := ⟨fun _ => some ["a.jpg", "b.txt"], fun _ => true, fun _ => true⟩

/-- An environment whose directory read fails. -/
def envReadDirFails : Env := ⟨fun _ => none, fun _ => true, fun _ => true⟩

/-- An environment where every jpeg open/decode fails. -/
def envDecodeFails : Env := ⟨fun _ => some ["a.jpg"], fun _ => false, fun _ => true⟩

/-- A color as Go's color.Color.RGBA() reports it: 16-bit alpha-premultiplied
red, green, blue and alpha components. -/
structure Pixel where
  r : Nat
  g : Nat
  b : Nat
  a : Nat
  deriving DecidableEq, Repr

/-- Validity of an alpha-premultiplied 16-bit color: every color component
is at most the alpha, which is at most 0xffff. -/
def Pixel.premultiplied (p : Pixel) : Prop :=
  p.r ≤ p.a ∧ p.g ≤ p.a ∧ p.b ≤ p.a ∧ p.a ≤ 65535

/-- Storing a 16-bit component into the 8-bit Pix array of an *image.RGBA:
Go writes uint8(v >> 8). -/
def store8 (v : Nat) : Nat := v / 256 % 256

/-- An image.Image: bounds rectangle plus the RGBA() color at each point. -/
structure Img where
  rect : Rect
  at16 : Point → Pixel

/-- Bounds of an image.Uniform (Go: ±1e9 on each axis). -/
def uniformBounds : Rect :=
  ⟨⟨-1000000000, -1000000000⟩, ⟨1000000000, 1000000000⟩⟩

/-- Line 115, draw.Draw(canvas, imgSize, srcImage, Point{0,0}, draw.Src):
the value of the canvas at a point after the base copy. Inside the clipped
copy region the source pixel is stored 8-bit (d[i] = uint8(c >> 8)); outside
it the freshly allocated canvas (image.NewRGBA, line 107) is still zero. -/
def canvasStep1 (base : Img) (pt : Point) : Pixel :=
  if inRect (base.rect.inter (base.rect.add base.rect.min)) pt then
    let c := base.at16 (pt.sub base.rect.min)
    ⟨store8 c.r, store8 c.g, store8 c.b, store8 c.a⟩
  else
    ⟨0, 0, 0, 0⟩

/-- The image/draw generic Over path for an *image.RGBA destination
(drawRGBA): a := (0xffff − sa·ma/0xffff)·0x101 and each output byte is
uint8(((d·a + s·ma)/0xffff) >> 8), with d the 8-bit canvas byte, s the
16-bit source component and ma the 16-bit mask alpha. -/
def blendOver (dst src : Pixel) (ma : Nat) : Pixel :=
  let a := (65535 - src.a * ma / 65535) * 257
  ⟨(dst.r * a + src.r * ma) / 65535 / 256 % 256,
   (dst.g * a + src.g * ma) / 65535 / 256 % 256,
   (dst.b * a + src.b * ma) / 65535 / 256 % 256,
   (dst.a * a + src.a * ma) / 65535 / 256 % 256⟩

/-- The clipped rectangle of draw.DrawMask at line 116, whose r argument is
imgSize.Add(offset) with sp = mp = (0,0): r is intersected with the canvas
bounds, the watermark bounds translated by orig (= r.Min), and the uniform
mask bounds translated likewise. -/
def drawRegion (base wm : Img) (offset : Point) : Rect :=
  let orig := (base.rect.add offset).min
  (((base.rect.add offset).inter base.rect).inter (wm.rect.add orig)).inter
    (uniformBounds.add orig)

/-- Lines 107 and 115–116: the composited output buffer's value at a point.
The watermark pixel blended into destination pt is the one at pt − orig
(source point sp + (pt − r.Min) after clip adjustment). -/
def composeAt (base wm : Img) (ma8 : Nat) (offset pt : Point) : Pixel :=
  let orig := (base.rect.add offset).min
  if inRect (drawRegion base wm offset) pt then
    blendOver (canvasStep1 base pt) (wm.at16 (pt.sub orig)) (ma8 * 257)
  else
    canvasStep1 base pt

/-- Line 104: the height handed to resize.Resize is
uint(watermarkScale * float64(imgSize.Dy())) — the product, truncated by
Go's float-to-uint conversion; the arithmetic is modelled exactly over ℚ. -/
def targetHeight (watermarkScale : ℚ) (baseDy : Nat) : Nat :=
  (⌊watermarkScale * baseDy⌋).toNat

/-- Modelled from the spec: the Resizer is the external library
github.com/nfnt/resize (not part of this repository); per §4.3 a width
argument of 0 means the width is computed to preserve the watermark's
original aspect ratio at the target height. -/
def resizeWidth (origW origH targetH : Nat) : Int :=
  round ((origW : ℚ) * targetH / origH)

/-- A 1×10 all-white opaque base image. -/
def cBase : Img := ⟨⟨⟨0, 0⟩, ⟨1, 10⟩⟩, fun _ => ⟨65535, 65535, 65535, 65535⟩⟩

/-- A 1×15 all-black opaque watermark — taller than cBase. -/
def cWm : Img := ⟨⟨⟨0, 0⟩, ⟨1, 15⟩⟩, fun _ => ⟨0, 0, 0, 65535⟩⟩

/-- A 1×1 base pixel with distinct channel values. -/
def cBase1 : Img := ⟨⟨⟨0, 0⟩, ⟨1, 1⟩⟩, fun _ => ⟨30000, 20000, 10000, 65535⟩⟩

/-- A 1×1 fully transparent watermark. -/
def cWmClear : Img := ⟨⟨⟨0, 0⟩, ⟨1, 1⟩⟩, fun _ => ⟨0, 0, 0, 0⟩⟩

/-- A 1×1 opaque black watermark. -/
def cWmBlack : Img := ⟨⟨⟨0, 0⟩, ⟨1, 1⟩⟩, fun _ => ⟨0, 0, 0, 65535⟩⟩

theorem inRect_inter (r s : Rect) (p : Point) :
    inRect (r.inter s) p = (inRect r p && inRect s p) := by
  rcases r with ⟨⟨ax, ay⟩, ⟨bx, bY⟩⟩
  rcases s with ⟨⟨cx, cy⟩, ⟨dx, dy⟩⟩
  rcases p with ⟨px, py⟩
  rw [Bool.eq_iff_iff]
  simp only [Rect.inter, Rect.isEmpty, inRect, Bool.and_eq_true, decide_eq_true_eq,
    Bool.or_eq_true, ge_iff_le]
  split <;> rename_i h <;> dsimp only
  · constructor
    · intro hm
      rcases h with h | h <;> omega
    · intro hm
      rcases h with h | h <;> omega
  · push_neg at h
    constructor
    · intro hm; omega
    · intro hm; omega

/-- C1: the claim says a run configured with -location "right" applies offset
(W−w, H−h). On base (0,0)–(100,200) and scaled watermark (0,0)–(40,20) with
location "right" and watermark file "watermark.png", the task computes (0,0),
not (60,180): the -location flag value never reaches the offset computation
(line 119 passes the watermark path instead). -/
theorem right_location_offset_bug :
    taskWatermarkOffset ⟨70, "right", 1/5, "watermark.png", "photos", "watermarked"⟩
        ⟨⟨0, 0⟩, ⟨100, 200⟩⟩ ⟨⟨0, 0⟩, ⟨40, 20⟩⟩ = ⟨0, 0⟩ ∧
    (⟨0, 0⟩ : Point) ≠ ⟨100 - 40, 200 - 20⟩ := by
  constructor
  · rfl
  · decide

/-- C2: two configurations differing only in the -location flag give every
task the same offset, and unless the watermark path is literally "left" or
"right" that offset is (0,0). -/
theorem location_flag_has_no_effect (c1 c2 : Config) (imgSize wmSize : Rect)
    (hop : c1.opacity = c2.opacity) (hsc : c1.scale = c2.scale)
    (hwm : c1.watermark = c2.watermark) (hsd : c1.sourceDir = c2.sourceDir)
    (htd : c1.targetDir = c2.targetDir) :
    taskWatermarkOffset c1 imgSize wmSize = taskWatermarkOffset c2 imgSize wmSize ∧
    (c1.watermark ≠ "left" → c1.watermark ≠ "right" →
      taskWatermarkOffset c1 imgSize wmSize = ⟨0, 0⟩) := by
  constructor
  · simp only [taskWatermarkOffset, taskLocationArg, hwm]
  · intro h1 h2
    simp only [taskWatermarkOffset, taskLocationArg, watermarkOffset, h1, h2, if_false]

theorem location_flag_has_no_effect_witness :
    taskWatermarkOffset ⟨70, "left", 1/5, "watermark.png", "photos", "watermarked"⟩
        ⟨⟨0, 0⟩, ⟨100, 200⟩⟩ ⟨⟨0, 0⟩, ⟨40, 20⟩⟩ =
      taskWatermarkOffset ⟨70, "right", 1/5, "watermark.png", "photos", "watermarked"⟩
        ⟨⟨0, 0⟩, ⟨100, 200⟩⟩ ⟨⟨0, 0⟩, ⟨40, 20⟩⟩ ∧
    taskWatermarkOffset ⟨70, "left", 1/5, "watermark.png", "photos", "watermarked"⟩
        ⟨⟨0, 0⟩, ⟨100, 200⟩⟩ ⟨⟨0, 0⟩, ⟨40, 20⟩⟩ = ⟨0, 0⟩ := by
  have h := location_flag_has_no_effect
    ⟨70, "left", 1/5, "watermark.png", "photos", "watermarked"⟩
    ⟨70, "right", 1/5, "watermark.png", "photos", "watermarked"⟩
    ⟨⟨0, 0⟩, ⟨100, 200⟩⟩ ⟨⟨0, 0⟩, ⟨40, 20⟩⟩ rfl rfl rfl rfl rfl
  exact ⟨h.1, h.2 (by decide) (by decide)⟩

/-- C3: the spec's intended opacity mapping round(p·255/100) would give
alpha 255 at p = 100, but line 84's uint8(p·255) wraps modulo 256 and
actually yields 156. -/
theorem opacity_alpha_unit_bug :
    maskAlpha 100 = 156 ∧ maskAlpha 100 ≠ 100 * 255 / 100 := by
  decide

/-- C4: the mask alpha actually constructed equals (p·255) mod 256, which is
0 at p = 0 and 256 − p for 1 ≤ p ≤ 100, hence strictly decreasing in the
opacity percentage over 1..100. -/
theorem mask_alpha_wraparound (p q : Int) (hp0 : 0 ≤ p) (hp1 : p ≤ 100) :
    maskAlpha p = (if p = 0 then 0 else 256 - p) ∧
    (1 ≤ p → p < q → q ≤ 100 → maskAlpha q < maskAlpha p) := by
  have key : ∀ r : Int, 0 ≤ r → r ≤ 100 → maskAlpha r = (if r = 0 then 0 else 256 - r) := by
    intro r h0 h1
    unfold maskAlpha
    split <;> rename_i h <;> omega
  refine ⟨key p hp0 hp1, ?_⟩
  intro h1 h2 h3
  rw [key p hp0 hp1, key q (by omega) h3,
    if_neg (by omega : ¬p = 0), if_neg (by omega : ¬q = 0)]
  omega

theorem mask_alpha_wraparound_witness :
    (maskAlpha 70 = if (70 : Int) = 0 then 0 else 256 - 70) ∧
    maskAlpha 80 < maskAlpha 70 := by
  have h := mask_alpha_wraparound 70 80 (by decide) (by decide)
  exact ⟨h.1, h.2 (by decide) (by decide) (by decide)⟩

theorem length_filter_split {α : Type} (p : α → Bool) (l : List α) :
    l.length = (l.filter p).length + (l.filter (fun x => !(p x))).length := by
  induction l with
  | nil => rfl
  | cons x rest ih =>
    cases h : p x <;> simp [List.filter_cons, h, ih] <;> omega

theorem runTasks_fatal_of_mem (env : Env) (cfg : Config) (name : String)
    (files : List String) (hmem : name ∈ files)
    (hfatal : (runTask env cfg name).isFatal = true) :
    (runTasks env cfg files).isFatal = true := by
  induction files with
  | nil => cases hmem
  | cons head rest ih =>
    rcases List.mem_cons.mp hmem with h | h
    · subst h
      cases hr : runTask env cfg name with
      | fatal msg => simp [runTasks, hr, FatalOr.isFatal]
      | ok res =>
        rw [hr] at hfatal
        simp [FatalOr.isFatal] at hfatal
    · have hrest := ih h
      cases hr : runTask env cfg head with
      | fatal msg => simp [runTasks, hr, FatalOr.isFatal]
      | ok res =>
        cases hts : runTasks env cfg rest with
        | fatal msg => simp [runTasks, hr, hts, FatalOr.isFatal]
        | ok outs =>
          rw [hts] at hrest
          simp [FatalOr.isFatal] at hrest

theorem runTasks_ok_outputs (env : Env) (cfg : Config) (files : List String)
    (hok : ∀ name ∈ files, isEligible name = true →
      env.openDecodeJpeg (pathJoin cfg.sourceDir name) = true ∧
      env.createEncodeJpeg (pathJoin cfg.targetDir name) = true) :
    runTasks env cfg files =
      .ok ((files.filter (fun n => isEligible n)).map
        (fun n => pathJoin cfg.targetDir n)) := by
  induction files with
  | nil => rfl
  | cons head rest ih =>
    have hrest := ih (fun n hn he => hok n (List.mem_cons_of_mem _ hn) he)
    by_cases he : isEligible head = true
    · have h1 := (hok head (List.mem_cons_self _ _) he).1
      have h2 := (hok head (List.mem_cons_self _ _) he).2
      have htask : runTask env cfg head = .ok (.wrote (pathJoin cfg.targetDir head)) := by
        have hcond : (!strHasSuffix head ".jpg" && !strHasSuffix head ".jpeg") = false := by
          simp only [isEligible, Bool.or_eq_true] at he
          rcases he with h | h <;> simp [h]
        simp [runTask, hcond, processEligibleFile, h1, h2]
      simp [runTasks, htask, hrest, outputsOf, List.filter_cons, he]
    · have he2 : isEligible head = false := by
        cases hh : isEligible head
        · rfl
        · exact absurd hh he
      have htask : runTask env cfg head = .ok .skipped := by
        simp only [isEligible, Bool.or_eq_false_iff] at he2
        simp [runTask, he2.1, he2.2]
      simp [runTasks, htask, hrest, outputsOf, List.filter_cons, he2]

/-- C8: a task skips a directory entry whose name does not end in ".jpg" or
".jpeg" — an ok result, no output file, no error — and an entry whose name
does end in one of those suffixes proceeds to the decode-and-composite
pipeline of lines 100–118. -/
theorem extension_filter (env : Env) (cfg : Config) (name : String) :
    (isEligible name = false →
      runTask env cfg name = .ok .skipped ∧ outputsOf .skipped = [] ∧
        (runTask env cfg name).isFatal = false) ∧
    (isEligible name = true →
      runTask env cfg name = processEligibleFile env cfg name) := by
  constructor
  · intro h
    simp only [isEligible, Bool.or_eq_false_iff] at h
    refine ⟨by simp [runTask, h.1, h.2], rfl, by simp [runTask, h.1, h.2, FatalOr.isFatal]⟩
  · intro h
    simp only [isEligible, Bool.or_eq_true] at h
    rcases h with h | h <;> simp [runTask, h]

theorem extension_filter_witness :
    (runTask envTwoFiles cfgDefault "b.txt" = .ok .skipped ∧
      outputsOf .skipped = [] ∧
      (runTask envTwoFiles cfgDefault "b.txt").isFatal = false) ∧
    runTask envTwoFiles cfgDefault "a.jpg" =
      processEligibleFile envTwoFiles cfgDefault "a.jpg" :=
  ⟨(extension_filter envTwoFiles cfgDefault "b.txt").1 (by decide),
   (extension_filter envTwoFiles cfgDefault "a.jpg").2 (by decide)⟩

/-- C9: a failed source-directory read, or a failure of an eligible file's
open/decode or create/encode step, makes the whole run fatal — no
BatchResult is reported for any file. -/
theorem task_failures_are_fatal (env : Env) (cfg : Config)
    (files : List String) (name : String) :
    (env.readDir cfg.sourceDir = none → (runBatch env cfg).isFatal = true) ∧
    (env.readDir cfg.sourceDir = some files → name ∈ files →
      isEligible name = true →
      (env.openDecodeJpeg (pathJoin cfg.sourceDir name) = false ∨
        env.createEncodeJpeg (pathJoin cfg.targetDir name) = false) →
      (runBatch env cfg).isFatal = true) := by
  constructor
  · intro hnone
    simp [runBatch, hnone, FatalOr.isFatal]
  · intro hread hmem helig hfail
    have hcond : (!strHasSuffix name ".jpg" && !strHasSuffix name ".jpeg") = false := by
      simp only [isEligible, Bool.or_eq_true] at helig
      rcases helig with h | h <;> simp [h]
    have htask : (runTask env cfg name).isFatal = true := by
      rcases hfail with h | h
      · simp [runTask, hcond, processEligibleFile, h, FatalOr.isFatal]
      · cases ho : env.openDecodeJpeg (pathJoin cfg.sourceDir name) <;>
          simp [runTask, hcond, processEligibleFile, h, ho, FatalOr.isFatal]
    have hts := runTasks_fatal_of_mem env cfg name files hmem htask
    cases hr : runTasks env cfg files with
    | fatal msg => simp [runBatch, hread, hr, FatalOr.isFatal]
    | ok outs =>
      rw [hr] at hts
      simp [FatalOr.isFatal] at hts

theorem task_failures_are_fatal_witness :
    (runBatch envReadDirFails cfgDefault).isFatal = true ∧
    (runBatch envDecodeFails cfgDefault).isFatal = true :=
  ⟨(task_failures_are_fatal envReadDirFails cfgDefault [] "a.jpg").1 rfl,
   (task_failures_are_fatal envDecodeFails cfgDefault ["a.jpg"] "a.jpg").2 rfl
     (by decide) (by decide) (Or.inl rfl)⟩

/-- C5: with source listing ["a.jpg", "b.txt"] (N = 1 eligible, M = 1
ineligible) and all I/O succeeding, exactly one output file is produced but
the count reported at line 124 is len(files) = 2, not N = 1. -/
theorem reported_count_counterexample :
    runBatch envTwoFiles cfgDefault = .ok (["watermarked/a.jpg"], 2) ∧
    (2 : Nat) ≠ 1 := by
  constructor
  · rfl
  · decide

/-- C5 (amended): when every task operation succeeds the batch writes
exactly one output per eligible file and none for the ineligible entries,
and the reported count equals the total number of directory entries
N + M (len(files)), not the eligible count N. -/
theorem batch_outputs_and_reported_count (env : Env) (cfg : Config)
    (files : List String)
    (hread : env.readDir cfg.sourceDir = some files)
    (hok : ∀ name ∈ files, isEligible name = true →
      env.openDecodeJpeg (pathJoin cfg.sourceDir name) = true ∧
      env.createEncodeJpeg (pathJoin cfg.targetDir name) = true) :
    runBatch env cfg =
      .ok ((files.filter (fun n => isEligible n)).map
        (fun n => pathJoin cfg.targetDir n), files.length) ∧
    files.length = (files.filter (fun n => isEligible n)).length +
      (files.filter (fun n => !(isEligible n))).length := by
  refine ⟨?_, length_filter_split _ files⟩
  simp [runBatch, hread, runTasks_ok_outputs env cfg files hok]

theorem batch_outputs_and_reported_count_witness :
    runBatch envTwoFiles cfgDefault =
      .ok (((["a.jpg", "b.txt"] : List String).filter (fun n => isEligible n)).map
        (fun n => pathJoin cfgDefault.targetDir n),
        (["a.jpg", "b.txt"] : List String).length) ∧
    (["a.jpg", "b.txt"] : List String).length =
      ((["a.jpg", "b.txt"] : List String).filter (fun n => isEligible n)).length +
      ((["a.jpg", "b.txt"] : List String).filter (fun n => !(isEligible n))).length :=
  batch_outputs_and_reported_count envTwoFiles cfgDefault ["a.jpg", "b.txt"] rfl
    (fun name hmem helig => ⟨rfl, rfl⟩)

theorem canvasStep1_le255 (base : Img) (pt : Point) :
    (canvasStep1 base pt).r ≤ 255 ∧ (canvasStep1 base pt).g ≤ 255 ∧
    (canvasStep1 base pt).b ≤ 255 ∧ (canvasStep1 base pt).a ≤ 255 := by
  unfold canvasStep1
  split
  · refine ⟨?_, ?_, ?_, ?_⟩ <;> simp only [store8] <;> omega
  · exact ⟨Nat.zero_le _, Nat.zero_le _, Nat.zero_le _, Nat.zero_le _⟩

theorem store_of_full_alpha (d : Nat) (hd : d ≤ 255) :
    d * (65535 * 257) / 65535 / 256 % 256 = d := by
  have h1 : d * (65535 * 257) / 65535 = d * 257 := by
    have he : d * (65535 * 257) = d * 257 * 65535 := by ring
    rw [he, Nat.mul_div_cancel _ (by norm_num : 0 < 65535)]
  rw [h1]
  have h2 : d * 257 / 256 = d := by
    have he : d * 257 = d + d * 256 := by ring
    rw [he, Nat.add_mul_div_right _ _ (by norm_num : 0 < 256),
      Nat.div_eq_of_lt (by omega)]
    omega
  rw [h2, Nat.mod_eq_of_lt (by omega)]

/-- C7: a watermark whose alpha channel is 0 at every pixel (hence, being
alpha-premultiplied, all of whose components are 0) leaves the output equal
to the base copy at every point: the masked draw-over step changes no
pixel, for every base, offset and uniform mask value. -/
theorem transparent_watermark_changes_nothing (base wm : Img) (ma8 : Nat)
    (offset pt : Point)
    (hpre : ∀ q : Point, (wm.at16 q).premultiplied)
    (halpha : ∀ q : Point, (wm.at16 q).a = 0) :
    composeAt base wm ma8 offset pt = canvasStep1 base pt := by
  simp only [composeAt]
  split
  · set q := pt.sub (base.rect.add offset).min with hq
    have h0 := halpha q
    obtain ⟨h1, h2, h3, h4⟩ := hpre q
    rw [h0] at h1 h2 h3
    have hr : (wm.at16 q).r = 0 := Nat.le_zero.mp h1
    have hg : (wm.at16 q).g = 0 := Nat.le_zero.mp h2
    have hb : (wm.at16 q).b = 0 := Nat.le_zero.mp h3
    obtain ⟨c1, c2, c3, c4⟩ := canvasStep1_le255 base pt
    simp only [blendOver, hr, hg, hb, h0, Nat.zero_mul, Nat.zero_div,
      Nat.sub_zero, Nat.add_zero]
    rcases hc : canvasStep1 base pt with ⟨dr, dg, db, da⟩
    rw [hc] at c1 c2 c3 c4
    simp only at c1 c2 c3 c4
    simp only [Pixel.mk.injEq]
    exact ⟨store_of_full_alpha dr c1, store_of_full_alpha dg c2,
      store_of_full_alpha db c3, store_of_full_alpha da c4⟩
  · rfl

theorem transparent_watermark_changes_nothing_witness :
    composeAt cBase1 cWmClear 186 ⟨0, 0⟩ ⟨0, 0⟩ = canvasStep1 cBase1 ⟨0, 0⟩ :=
  transparent_watermark_changes_nothing cBase1 cWmClear 186 ⟨0, 0⟩ ⟨0, 0⟩
    (fun q => by simp [cWmClear, Pixel.premultiplied]) (fun q => rfl)

/-- C10 (counterexample to "draws exactly the in-bounds portion"): with the
1×15 watermark cWm on the 1×10 base cBase at offset (0,−5) — the spec's own
taller-than-base LEFT placement — the point (0,9) is inside the output
bounds and under the translated watermark (watermark row 14), and blending
there would change the pixel, yet the code leaves it untouched: the draw
rectangle imgSize.Add(offset) additionally clips the region, so rows 5–9
of the in-bounds watermark portion are never drawn. -/
theorem clipping_not_exact :
    inRect cBase.rect ⟨0, 9⟩ = true ∧
    inRect (cWm.rect.add ((cBase.rect.add ⟨0, -5⟩).min)) ⟨0, 9⟩ = true ∧
    blendOver (canvasStep1 cBase ⟨0, 9⟩)
      (cWm.at16 (Point.sub ⟨0, 9⟩ ((cBase.rect.add ⟨0, -5⟩).min))) (255 * 257) ≠
      canvasStep1 cBase ⟨0, 9⟩ ∧
    composeAt cBase cWm 255 ⟨0, -5⟩ ⟨0, 9⟩ = canvasStep1 cBase ⟨0, 9⟩ := by
  refine ⟨by decide, by decide, by decide, by decide⟩

/-- C10 (amended): compositing is a total function, and it is clipped: any
point at which the output differs from the base copy lies inside the output
buffer's bounds and inside the watermark's translated footprint. (The drawn
region is not exactly the in-bounds portion of the watermark: it is further
clipped by the base bounds translated by the offset, see clipping_not_exact.) -/
theorem clipping_writes_in_bounds (base wm : Img) (ma8 : Nat) (offset pt : Point)
    (hdiff : composeAt base wm ma8 offset pt ≠ canvasStep1 base pt) :
    inRect base.rect pt = true ∧
    inRect (wm.rect.add ((base.rect.add offset).min)) pt = true := by
  simp only [composeAt] at hdiff
  by_cases h : inRect (drawRegion base wm offset) pt = true
  · simp only [drawRegion] at h
    rw [inRect_inter, inRect_inter, inRect_inter] at h
    simp only [Bool.and_eq_true] at h
    exact ⟨h.1.1.2, h.1.2⟩
  · exfalso
    rw [if_neg h] at hdiff
    exact hdiff rfl

theorem clipping_writes_in_bounds_witness :
    inRect cBase1.rect ⟨0, 0⟩ = true ∧
    inRect (cWmBlack.rect.add ((cBase1.rect.add ⟨0, 0⟩).min)) ⟨0, 0⟩ = true :=
  clipping_writes_in_bounds cBase1 cWmBlack 255 ⟨0, 0⟩ ⟨0, 0⟩ (by decide)

/-- C6: the height handed to the resizer (the truncated product of line 104)
is within one pixel of round(f·H), and the resizer's width — modelled from
the spec's contract for the external resize library — preserves the
watermark's original aspect ratio within one pixel. -/
theorem scale_height_and_aspect (f : ℚ) (H origW origH : Nat) (hf : 0 ≤ f) :
    |(targetHeight f H : Int) - round (f * (H : ℚ))| ≤ 1 ∧
    |(resizeWidth origW origH (targetHeight f H) : ℚ) -
      (origW : ℚ) * (targetHeight f H : ℚ) / (origH : ℚ)| ≤ 1 := by
  constructor
  · have h0 : (0 : ℚ) ≤ f * (H : ℚ) := mul_nonneg hf (Nat.cast_nonneg H)
    have hfl : (0 : Int) ≤ ⌊f * (H : ℚ)⌋ := Int.floor_nonneg.mpr h0
    have ht : (targetHeight f H : Int) = ⌊f * (H : ℚ)⌋ := by
      simp only [targetHeight]
      exact Int.toNat_of_nonneg hfl
    rw [ht, round_eq]
    have h1 : ⌊f * (H : ℚ)⌋ ≤ ⌊f * (H : ℚ) + 1 / 2⌋ :=
      Int.floor_le_floor (by linarith)
    have h2 : ⌊f * (H : ℚ) + 1 / 2⌋ ≤ ⌊f * (H : ℚ)⌋ + 1 := by
      have h3 : ⌊f * (H : ℚ) + 1 / 2⌋ ≤ ⌊f * (H : ℚ) + (1 : Int)⌋ :=
        Int.floor_le_floor (by push_cast; linarith)
      have h4 : ⌊f * (H : ℚ) + (1 : Int)⌋ = ⌊f * (H : ℚ)⌋ + 1 :=
        Int.floor_add_int (f * (H : ℚ)) 1
      omega
    rw [abs_le]
    omega
  · simp only [resizeWidth]
    rw [abs_sub_comm]
    have h := abs_sub_round ((origW : ℚ) * (targetHeight f H : ℚ) / (origH : ℚ))
    linarith

theorem scale_height_and_aspect_witness :
    |(targetHeight (1 / 10) 200 : Int) - round ((1 / 10 : ℚ) * ((200 : Nat) : ℚ))| ≤ 1 ∧
    |(resizeWidth 50 25 (targetHeight (1 / 10) 200) : ℚ) -
      ((50 : Nat) : ℚ) * (targetHeight (1 / 10) 200 : ℚ) / ((25 : Nat) : ℚ)| ≤ 1 :=
  scale_height_and_aspect (1 / 10) 200 50 25 (by norm_num)

end WaterMarker
